import Mathlib

/-
Verification development for the step-school-eval repository: a shallow
embedding of its response-aggregation and report-synthesis pipeline
(src/functions/src/index.ts, src/src/integrations/firebase/types.ts,
src/src/pages/Survey.tsx, the ProjectStats component and the
ReportGenerator component), with theorems checking the specification's
claims against the embedded code.
-/

namespace StepSchoolEval

/-! ## JavaScript field values

A Firestore document field as seen by the JavaScript code: a field that was
never written is absent and reads as JS undefined; null, strings and
numbers are the values the repository actually stores.  -/

/-- Model of a JavaScript field value read off a Firestore document.
`undef` is an absent field (JS undefined); `null` an explicit null. -/
inductive JsVal where
  | undef
  | null
  | str (s : String)
  | num (q : ℚ)
deriving DecidableEq

/-- JS truthiness of a field value: undefined, null, the empty string and 0
are falsy, everything else modelled here is truthy. -/
def jsTruthy : JsVal → Bool
  | .undef => false
  | .null => false
  | .str s => s ≠ ""
  | .num q => q ≠ 0

/-- JS strict comparison x !== null (undefined !== null is true). -/
def jsNeNull : JsVal → Bool
  | .null => false
  | _ => true

/-! ## JS parseInt

The repository calls parseInt(value) on response values (ProjectStats
loadStats, calculateAverageFromResponses).  parseInt skips leading
whitespace, accepts an optional sign and then reads the longest prefix of
decimal digits, returning NaN (modelled as none) when that prefix is
empty.  The builtin's hexadecimal 0x prefix handling is not modelled; no
stored value in this system starts with 0x. -/

/-- Decimal digit value of a character, none for non-digits. -/
def charToDigit? (c : Char) : Option Nat :=
  if c = '0' then some 0
  else if c = '1' then some 1
  else if c = '2' then some 2
  else if c = '3' then some 3
  else if c = '4' then some 4
  else if c = '5' then some 5
  else if c = '6' then some 6
  else if c = '7' then some 7
  else if c = '8' then some 8
  else if c = '9' then some 9
  else none

/-- Whether a character is a decimal digit. -/
def isDigitCh (c : Char) : Bool := (charToDigit? c).isSome

/-- Value of a list of digit characters, most significant first. -/
def digitsVal (l : List Char) : Nat :=
  l.foldl (fun a c => 10 * a + (charToDigit? c).getD 0) 0

/-- Read the longest prefix of decimal digits; none when it is empty. -/
def parseDigits (s : List Char) : Option (Nat × List Char) :=
  let ds := s.takeWhile isDigitCh
  if ds.isEmpty then none else some (digitsVal ds, s.dropWhile isDigitCh)

/-- JS parseInt on a string, none standing for NaN. -/
def parseIntJs (s : String) : Option ℤ :=
  match s.toList.dropWhile (fun c => c == ' ' || c == '\t' || c == '\n' || c == '\r') with
  | '-' :: t => (parseDigits t).map (fun p => -(p.1 : ℤ))
  | '+' :: t => (parseDigits t).map (fun p => (p.1 : ℤ))
  | t => (parseDigits t).map (fun p => (p.1 : ℤ))

/-! ## Statistics aggregation (ProjectStats.loadStats)

The loadStats routine of the ProjectStats component reduces the project's
responses and questions to per-type counts, a rating average and a
per-type completion rate. -/

/-- A response document as consumed by loadStats: its respondent type and
its optional response_value string (the survey stores every answer there). -/
structure StatResponse where
  respondent_type : String
  response_value : Option String
deriving DecidableEq

/-- A question document as consumed by loadStats (only the respondent type
matters to the aggregation). -/
structure StatQuestion where
  respondent_type : String
deriving DecidableEq

/-- Per-type response count (the typeCount map of loadStats; a type absent
from the map is reported as count 0, matching the JS read typeCount[t] || 0). -/
def typeCount (rs : List StatResponse) (t : String) : Nat :=
  (rs.filter (fun r => r.respondent_type == t)).length

/-- Per-type question count (the questionsByType map of loadStats). -/
def questionsByType (qs : List StatQuestion) (t : String) : Nat :=
  (qs.filter (fun q => q.respondent_type == t)).length

/-- The rating accumulation loop of loadStats: for each response with a
truthy response_value whose parseInt value lies in 1..5, add the value to
the running total and bump the count. -/
def ratingAccum (rs : List StatResponse) : ℚ × Nat :=
  rs.foldl
    (fun acc r =>
      match r.response_value with
      | some s =>
        if s ≠ "" then
          match parseIntJs s with
          | some n => if 1 ≤ n ∧ n ≤ 5 then (acc.1 + (n : ℚ), acc.2 + 1) else acc
          | none => acc
        else acc
      | none => acc)
    (0, 0)

/-- averageRating as computed by loadStats: totalRating / ratingCount when
ratingCount > 0, and 0 otherwise. -/
def averageRatingStat (rs : List StatResponse) : ℚ :=
  if (ratingAccum rs).2 > 0 then (ratingAccum rs).1 / ((ratingAccum rs).2 : ℚ) else 0

/-- JS Math.round: round half away from zero upwards (floor of x + 1/2). -/
def jsRound (q : ℚ) : ℤ := Int.floor (q + 1 / 2)

/-- The completionRate map of loadStats: it is built by iterating over the
keys of questionsByType only, so it is defined exactly for the respondent
types having at least one question; inside the loop the divisor is
questionsByType[type] || 1. -/
def completionRateStat (qs : List StatQuestion) (rs : List StatResponse) (t : String) :
    Option ℤ :=
  if questionsByType qs t = 0 then none
  else
    let total := if questionsByType qs t = 0 then 1 else questionsByType qs t
    some (jsRound ((typeCount rs t : ℚ) / (total : ℚ) * 100))

/-- Specification-side rating extraction: the response value parses (by JS
parseInt) to an integer in [1,5].  Unlike the code's loop this has no
separate truthiness guard on the value. -/
def parsesAsRating (r : StatResponse) : Option ℤ :=
  match r.response_value with
  | some s =>
    match parseIntJs s with
    | some n => if 1 ≤ n ∧ n ≤ 5 then some n else none
    | none => none
  | none => none

/-- The guarded per-response step of the loadStats loop, as a function. -/
def ratingOf (r : StatResponse) : Option ℤ :=
  match r.response_value with
  | some s =>
    if s ≠ "" then
      match parseIntJs s with
      | some n => if 1 ≤ n ∧ n ≤ 5 then some n else none
      | none => none
    else none
  | none => none

/-- The rating values of a response list, in order. -/
def ratingsOf (rs : List StatResponse) : List ℤ := rs.filterMap parsesAsRating

/-! ## Grade conversion (gradeConversion / types.ts) -/

/-- The four ordinal grade levels. -/
inductive GradeLevel where
  | excellent
  | good
  | average
  | poor
deriving DecidableEq

/-- Presentation record attached to each grade level. -/
structure GradeInfo where
  level : GradeLevel
  label : String
  color : String
  bgColor : String
  description : String
deriving DecidableEq

/-- The three lower bounds of the upper three grade bins. -/
structure GradeThresholds where
  excellent : ℚ
  good : ℚ
  average : ℚ
deriving DecidableEq

/-- gradeThresholds of the source: excellent 4.2, good 3.4, average 2.6. -/
def gradeThresholds : GradeThresholds :=
  { excellent := 4.2, good := 3.4, average := 2.6 }

/-- gradeInfoMap of the source. -/
def gradeInfoMap : GradeLevel → GradeInfo
  | .excellent =>
    { level := .excellent, label := "우수", color := "text-emerald-600",
      bgColor := "bg-emerald-100", description := "목표 달성이 우수함" }
  | .good =>
    { level := .good, label := "양호", color := "text-blue-600",
      bgColor := "bg-blue-100", description := "목표에 근접함" }
  | .average =>
    { level := .average, label := "보통", color := "text-amber-600",
      bgColor := "bg-amber-100", description := "개선 필요" }
  | .poor =>
    { level := .poor, label := "미흡", color := "text-red-600",
      bgColor := "bg-red-100", description := "즉각적인 개선 필요" }

/-- convertToGrade of the source: a descending if chain of closed lower
bounds. -/
def convertToGrade (averageScore : ℚ) : GradeInfo :=
  if averageScore ≥ gradeThresholds.excellent then gradeInfoMap .excellent
  else if averageScore ≥ gradeThresholds.good then gradeInfoMap .good
  else if averageScore ≥ gradeThresholds.average then gradeInfoMap .average
  else gradeInfoMap .poor

/-- calculateAverageFromResponses of the source: parseInt every value, keep
the integers in [1,5], average them, 0 when none survive. -/
def calculateAverageFromResponses (responses : List String) : ℚ :=
  let numericValues := responses.filterMap
    (fun s =>
      match parseIntJs s with
      | some n => if 1 ≤ n ∧ n ≤ 5 then some n else none
      | none => none)
  if numericValues.length = 0 then 0
  else ((numericValues.sum : ℤ) : ℚ) / (numericValues.length : ℚ)

/-- Ordinal rank of a grade level: poor < average < good < excellent. -/
def gradeOrd : GradeLevel → Nat
  | .poor => 0
  | .average => 1
  | .good => 2
  | .excellent => 3

/-! ## JSON values

The two Cloud Functions ask the generative service for a JSON object and
extract it from the returned free text with the regular expression
\x7b[\s\S]*\x7d (first opening brace through last closing brace), then run
JSON.parse on the span.  The model below embeds JSON values (numbers as
integers, which covers every numeric field the prompts request), their
serialization, and a parser for the serialized grammar standing for
JSON.parse. -/

/-- Character of a decimal digit value. -/
def digitToChar (d : Nat) : Char :=
  if d = 0 then '0'
  else if d = 1 then '1'
  else if d = 2 then '2'
  else if d = 3 then '3'
  else if d = 4 then '4'
  else if d = 5 then '5'
  else if d = 6 then '6'
  else if d = 7 then '7'
  else if d = 8 then '8'
  else '9'

/-- Decimal digit characters of a natural number, most significant first. -/
def natChars (m : Nat) : List Char :=
  if m = 0 then ['0'] else ((Nat.digits 10 m).reverse).map digitToChar

/-- Decimal rendering of an integer. -/
def intChars (n : ℤ) : List Char :=
  if n < 0 then '-' :: natChars n.natAbs else natChars n.natAbs

/-- A JSON value: null, booleans, (integer) numbers, strings, arrays and
objects. -/
inductive Json where
  | jnull
  | jbool (b : Bool)
  | jnum (n : ℤ)
  | jstr (s : List Char)
  | jarr (elems : List Json)
  | jobj (members : List (List Char × Json))

/-- JSON string-body escaping: the double quote and the backslash are
escaped with a backslash. -/
def escStr : List Char → List Char
  | [] => []
  | c :: cs => if c = '"' ∨ c = '\\' then '\\' :: c :: escStr cs else c :: escStr cs

mutual
/-- Serialization of a JSON value (as JSON.stringify renders it, without
insignificant whitespace). -/
def ser : Json → List Char
  | .jnull => ['n', 'u', 'l', 'l']
  | .jbool true => ['t', 'r', 'u', 'e']
  | .jbool false => ['f', 'a', 'l', 's', 'e']
  | .jnum n => intChars n
  | .jstr s => '"' :: escStr s ++ ['"']
  | .jarr [] => ['[', ']']
  | .jarr (x :: xs) => '[' :: serElems x xs ++ [']']
  | .jobj [] => ['{', '}']
  | .jobj (kv :: kvs) => '{' :: serMembers kv kvs ++ ['}']
termination_by j => sizeOf j

/-- Serialization of a nonempty comma-separated array body. -/
def serElems : Json → List Json → List Char
  | x, [] => ser x
  | x, y :: ys => ser x ++ ',' :: serElems y ys
termination_by x xs => 1 + sizeOf x + sizeOf xs

/-- Serialization of a nonempty comma-separated object body. -/
def serMembers : (List Char × Json) → List (List Char × Json) → List Char
  | (k, v), [] => '"' :: escStr k ++ '"' :: ':' :: ser v
  | (k, v), kv2 :: kvs =>
    ('"' :: escStr k ++ '"' :: ':' :: ser v) ++ ',' :: serMembers kv2 kvs
termination_by kv kvs => 1 + sizeOf kv + sizeOf kvs
end

/-- Parse a JSON string body up to its closing quote, unescaping
backslash escapes. -/
def parseStrBody : List Char → Option (List Char × List Char)
  | [] => none
  | c :: r =>
    if c = '"' then some ([], r)
    else if c = '\\' then
      match r with
      | [] => none
      | e :: r2 =>
        match parseStrBody r2 with
        | some (s, r3) => some (e :: s, r3)
        | none => none
    else
      match parseStrBody r with
      | some (s, r2) => some (c :: s, r2)
      | none => none

/-- Whether a list starts with the given character. -/
def headIs (s : List Char) (c : Char) : Bool :=
  match s with
  | [] => false
  | x :: _ => x = c

mutual
/-- Fueled parser for a serialized JSON value, returning the value and the
unconsumed input. -/
def parseVal : Nat → List Char → Option (Json × List Char)
  | 0, _ => none
  | fuel + 1, s =>
    match s with
    | [] => none
    | c :: r =>
      if isDigitCh c then
        match parseDigits (c :: r) with
        | some (m, r2) => some (.jnum (m : ℤ), r2)
        | none => none
      else
        match c, r with
        | 'n', 'u' :: 'l' :: 'l' :: r2 => some (.jnull, r2)
        | 't', 'r' :: 'u' :: 'e' :: r2 => some (.jbool true, r2)
        | 'f', 'a' :: 'l' :: 's' :: 'e' :: r2 => some (.jbool false, r2)
        | '"', r2 =>
          (match parseStrBody r2 with
           | some (str, r3) => some (.jstr str, r3)
           | none => none)
        | '-', r2 =>
          (match parseDigits r2 with
           | some (m, r3) => some (.jnum (-(m : ℤ)), r3)
           | none => none)
        | '[', r2 =>
          if headIs r2 ']' then some (.jarr [], r2.tail)
          else
            (match parseElems fuel r2 with
             | some (xs, r3) => some (.jarr xs, r3)
             | none => none)
        | '{', r2 =>
          if headIs r2 '}' then some (.jobj [], r2.tail)
          else
            (match parseMembers fuel r2 with
             | some (kvs, r3) => some (.jobj kvs, r3)
             | none => none)
        | _, _ => none

/-- Fueled parser for a nonempty array body including its closing bracket. -/
def parseElems : Nat → List Char → Option (List Json × List Char)
  | 0, _ => none
  | fuel + 1, s =>
    match parseVal fuel s with
    | none => none
    | some (v, r) =>
      match r with
      | ',' :: r2 =>
        (match parseElems fuel r2 with
         | some (xs, r3) => some (v :: xs, r3)
         | none => none)
      | ']' :: r2 => some ([v], r2)
      | _ => none

/-- Fueled parser for a nonempty object body including its closing brace. -/
def parseMembers : Nat → List Char → Option (List (List Char × Json) × List Char)
  | 0, _ => none
  | fuel + 1, s =>
    match s with
    | '"' :: r =>
      (match parseStrBody r with
       | some (k, r1) =>
         match r1 with
         | ':' :: r2 =>
           (match parseVal fuel r2 with
            | some (v, r3) =>
              match r3 with
              | ',' :: r4 =>
                (match parseMembers fuel r4 with
                 | some (kvs, r5) => some ((k, v) :: kvs, r5)
                 | none => none)
              | '}' :: r4 => some ([(k, v)], r4)
              | _ => none
            | none => none)
         | _ => none
       | none => none)
    | _ => none
end

/-- JSON.parse on a character list: the whole input must be one value. -/
def parseJson (s : List Char) : Option Json :=
  match parseVal s.length s with
  | some (v, []) => some v
  | _ => none

/-- Suffix of the input starting at its first opening brace. -/
def afterFirstBrace : List Char → Option (List Char)
  | [] => none
  | c :: r => if c = '{' then some (c :: r) else afterFirstBrace r

/-- Longest prefix of the input ending at its last closing brace. -/
def upToLastClose (s : List Char) : Option (List Char) :=
  match s.reverse.dropWhile (fun c => !(c == '}')) with
  | [] => none
  | r => some r.reverse

/-- The brace-delimited span the functions extract with the regular
expression \x7b[\s\S]*\x7d: from the first opening brace to the last
closing brace, none when no such span exists. -/
def extractSpan (s : List Char) : Option (List Char) :=
  match afterFirstBrace s with
  | none => none
  | some t => upToLastClose t

/-- The structured-output parser of both Cloud Functions: extract the
widest brace span, then JSON.parse it; none models the thrown
malformed-output error. -/
def parseStructuredOutputL (s : List Char) : Option Json :=
  match extractSpan s with
  | none => none
  | some span => parseJson span

/-- String-level wrapper of the structured-output parser. -/
def parseStructuredOutput (s : String) : Option Json :=
  parseStructuredOutputL s.toList

/-- Inputs after which the number parser must stop: end of input or a
separator character that is not a digit. -/
def stopOk : List Char → Prop
  | [] => True
  | c :: _ => isDigitCh c = false

/-! ## JS number semantics for the unguarded division (generateReport)

generateReport computes Math.round(responses.length / (questions.length * 10) * 100)
without guarding the divisor, so the JS float special values are modelled
explicitly. -/

/-- A JS number: finite (exact rational in our range of interest), the two
infinities, or NaN. -/
inductive JsNum where
  | fin (q : ℚ)
  | posInf
  | negInf
  | nan
deriving DecidableEq

/-- JS division, including division by zero producing infinities or NaN. -/
def jsDiv : JsNum → JsNum → JsNum
  | .nan, _ => .nan
  | _, .nan => .nan
  | .fin a, .fin b =>
    if b = 0 then (if a = 0 then .nan else if 0 < a then .posInf else .negInf)
    else .fin (a / b)
  | .posInf, .fin b => if b < 0 then .negInf else .posInf
  | .negInf, .fin b => if b < 0 then .posInf else .negInf
  | .fin _, .posInf => .fin 0
  | .fin _, .negInf => .fin 0
  | .posInf, .posInf => .nan
  | .posInf, .negInf => .nan
  | .negInf, .posInf => .nan
  | .negInf, .negInf => .nan

/-- JS multiplication on the extended numbers. -/
def jsMul : JsNum → JsNum → JsNum
  | .nan, _ => .nan
  | _, .nan => .nan
  | .fin a, .fin b => .fin (a * b)
  | .posInf, .fin b => if b = 0 then .nan else if 0 < b then .posInf else .negInf
  | .negInf, .fin b => if b = 0 then .nan else if 0 < b then .negInf else .posInf
  | .fin a, .posInf => if a = 0 then .nan else if 0 < a then .posInf else .negInf
  | .fin a, .negInf => if a = 0 then .nan else if 0 < a then .negInf else .posInf
  | .posInf, .posInf => .posInf
  | .posInf, .negInf => .negInf
  | .negInf, .posInf => .negInf
  | .negInf, .negInf => .posInf

/-- JS Math.round on the extended numbers: the infinities and NaN pass
through unchanged. -/
def jsRoundN : JsNum → JsNum
  | .fin q => .fin ((jsRound q : ℤ) : ℚ)
  | x => x

/-- The report-level completion rate of generateReport:
Math.round(responses.length / (questions.length * 10) * 100). -/
def reportCompletionRate (responsesLen questionsLen : Nat) : JsNum :=
  jsRoundN (jsMul (jsDiv (.fin (responsesLen : ℚ)) (.fin ((questionsLen * 10 : ℕ) : ℚ)))
    (.fin 100))

/-! ## The Cloud Functions (functions/src/index.ts) -/

/-- A response document as the Cloud Functions read it back from the
responses collection: the analysis filters touch text_response and
rating_response, fields the survey submission never writes. -/
structure FDoc where
  question_id : Option String
  respondent_type : Option String
  text_response : JsVal
  rating_response : JsVal
  response_value : JsVal
deriving DecidableEq

/-- The text-response filter of analyzeResponses: r.text_response truthy. -/
def textResponsesOf (rs : List FDoc) : List FDoc :=
  rs.filter (fun r => jsTruthy r.text_response)

/-- The rating-response filter of analyzeResponses: r.rating_response !== null. -/
def ratingResponsesOf (rs : List FDoc) : List FDoc :=
  rs.filter (fun r => jsNeNull r.rating_response)

/-- The document shape the survey submission paths (Survey.tsx and the
teacher survey) insert: exactly these five fields and no others. -/
structure SurveyInsert where
  project_id : String
  question_id : String
  respondent_type : String
  response_value : String
  session_id : String
deriving DecidableEq

/-- The stored document a survey insert produces, as the functions later
read it: the fields the survey never writes are absent (undefined). -/
def surveyToDoc (i : SurveyInsert) : FDoc :=
  { question_id := some i.question_id
    respondent_type := some i.respondent_type
    text_response := .undef
    rating_response := .undef
    response_value := .str i.response_value }

/-- The HttpsError codes this system uses. -/
inductive ErrCode where
  | invalidArgument
  | notFound
  | internal
deriving DecidableEq

/-- An HttpsError as surfaced to the callable-function client. -/
structure HttpsErr where
  code : ErrCode
  message : String
deriving DecidableEq

/-- The catch-all of analyzeResponses rethrows any error wrapped in this
message. -/
def wrapAnalyzeErr (e : String) : String := "분석 중 오류가 발생했습니다: " ++ e

/-- The catch-all of generateReport rethrows any error wrapped in this
message. -/
def wrapReportErr (e : String) : String := "보고서 생성 중 오류가 발생했습니다: " ++ e

/-- Environment of one analyzeResponses invocation: whether the project
document exists, the project's responses, and the outcome of the
generative call (error carries the JS string form of the failure). -/
structure AnalyzeEnv where
  projectExists : Bool
  responses : List FDoc
  aiResult : Except String String

/-- The analysis object analyzeResponses returns on success (the parsed AI
payload plus the statistics counts; the averaged rating of the
rating_response field values does not bear on any claim and is left out). -/
structure AnalyzeOut where
  analysis : Json
  totalResponses : Nat
  textResponses : Nat
  ratingResponses : Nat

/-- analyzeResponses: reject a missing projectId (outside the try block),
then inside the try block reject a missing project or an empty response
set, call the generative service, extract and parse the JSON span, and
assemble the result; every error thrown inside the try block is caught by
the catch-all and rethrown as an internal HttpsError wrapping the original
error's string form. -/
def serverAnalyzeResponses (projectId : Option String) (env : AnalyzeEnv) :
    Except HttpsErr AnalyzeOut :=
  match projectId with
  | none => .error { code := .invalidArgument, message := "프로젝트 ID가 필요합니다." }
  | some _ =>
    if env.projectExists = false then
      .error { code := .internal, message := wrapAnalyzeErr "Error: 프로젝트를 찾을 수 없습니다." }
    else if env.responses.isEmpty then
      .error { code := .internal, message := wrapAnalyzeErr "Error: 분석할 응답이 없습니다." }
    else
      match env.aiResult with
      | .error m => .error { code := .internal, message := wrapAnalyzeErr m }
      | .ok responseText =>
        match extractSpan responseText.toList with
        | none =>
          .error { code := .internal,
                   message := wrapAnalyzeErr "Error: AI 응답에서 JSON을 추출할 수 없습니다." }
        | some span =>
          match parseJson span with
          | none =>
            .error { code := .internal,
                     message := wrapAnalyzeErr "SyntaxError: Unexpected token" }
          | some analysis =>
            .ok { analysis := analysis
                  totalResponses := env.responses.length
                  textResponses := (textResponsesOf env.responses).length
                  ratingResponses := (ratingResponsesOf env.responses).length }

/-- JS truthiness of a parsed JSON value. -/
def jsonTruthy : Json → Bool
  | .jnull => false
  | .jbool b => b
  | .jnum n => if n = 0 then false else true
  | .jstr s => !s.isEmpty
  | .jarr _ => true
  | .jobj _ => true

/-- JS member access on a parsed JSON value (last duplicate key wins, as
JSON.parse keeps the last occurrence); none models undefined. -/
def jsGet (j : Json) (k : String) : Option Json :=
  match j with
  | .jobj kvs => kvs.foldl (fun acc kv => if kv.1 = k.toList then some kv.2 else acc) none
  | _ => none

/-- The JS pattern v \x7c\x7c default for a possibly-absent member with a
string default. -/
def jsonOrStr (v : Option Json) (d : String) : Json :=
  match v with
  | some j => if jsonTruthy j then j else .jstr d.toList
  | none => .jstr d.toList

/-- The JS pattern v \x7c\x7c [] for a possibly-absent member with an
empty-array default. -/
def jsonOrArr (v : Option Json) : Json :=
  match v with
  | some j => if jsonTruthy j then j else .jarr []
  | none => .jarr []

/-- Default report title of generateReport: school name (empty when the
school document or its name is missing) followed by the report suffix. -/
def defaultReportTitle (schoolName : Option String) : String :=
  (match schoolName with
   | some s => if s ≠ "" then s else ""
   | none => "") ++ " 학교 평가 보고서"

/-- A question document of generateReport (only its id and text are read,
and only the count bears on the claims). -/
structure FQuestion where
  id : String
  question_text : String
deriving DecidableEq

/-- Environment of one generateReport invocation. -/
structure ReportEnv where
  projectExists : Bool
  schoolName : Option String
  questions : List FQuestion
  responses : List FDoc
  aiResult : Except String String

/-- The report generateReport returns on success: title and sections from
the parsed AI payload (with the JS defaults), plus its statistics; the
statistics.averageRating mean of per-question means does not bear on any
claim and is left out. -/
structure GenReport where
  title : Json
  sections : Json
  totalResponses : Nat
  completionRate : JsNum

/-- generateReport: reject a missing projectId (outside the try block),
then inside the try block reject a missing project, call the generative
service, extract and parse the JSON span, and assemble the report; every
error thrown inside the try block is caught by the catch-all and rethrown
as an internal HttpsError wrapping the original error's string form.
generateReport performs no empty-responses check. -/
def serverGenerateReport (projectId : Option String) (env : ReportEnv) :
    Except HttpsErr GenReport :=
  match projectId with
  | none => .error { code := .invalidArgument, message := "프로젝트 ID가 필요합니다." }
  | some _ =>
    if env.projectExists = false then
      .error { code := .internal, message := wrapReportErr "Error: 프로젝트를 찾을 수 없습니다." }
    else
      match env.aiResult with
      | .error m => .error { code := .internal, message := wrapReportErr m }
      | .ok responseText =>
        match extractSpan responseText.toList with
        | none =>
          .error { code := .internal,
                   message := wrapReportErr "Error: AI 응답에서 JSON을 추출할 수 없습니다." }
        | some span =>
          match parseJson span with
          | none =>
            .error { code := .internal,
                     message := wrapReportErr "SyntaxError: Unexpected token" }
          | some reportData =>
            .ok { title := jsonOrStr (jsGet reportData "title")
                    (defaultReportTitle env.schoolName)
                  sections := jsonOrArr (jsGet reportData "sections")
                  totalResponses := env.responses.length
                  completionRate :=
                    reportCompletionRate env.responses.length env.questions.length }

/-! ## The client-side ReportGenerator component -/

/-- A report section as the ReportGenerator displays it; title and content
are absent (undefined) when the AI section object lacks them. -/
structure ClientSection where
  id : String
  title : Option Json
  content : Option Json

/-- The report the ReportGenerator holds in its state. -/
structure ClientReport where
  title : Json
  sections : List ClientSection

/-- Mapping of the returned sections value into display sections with
1-based string ids (a truthy non-array sections value would make the JS
map call throw; it is modelled as yielding no sections). -/
def clientSectionsFrom : Json → List ClientSection
  | .jarr xs =>
    xs.enum.map (fun p =>
      { id := toString (p.1 + 1), title := jsGet p.2 "title", content := jsGet p.2 "content" })
  | _ => []

/-- The success branch of the ReportGenerator: take the returned report,
defaulting the title from the session's school name. -/
def clientFromOk (schoolName : String) (rep : GenReport) : ClientReport :=
  { title :=
      if jsonTruthy rep.title then rep.title
      else .jstr (schoolName ++ " 학교평가 보고서").toList
    sections := clientSectionsFrom rep.sections }

/-- The fixed demo report the ReportGenerator substitutes when the error
message signals undeployed functions: six sections with fixed titles and
contents. -/
def demoReport (schoolName : String) : ClientReport :=
  { title := .jstr (schoolName ++ " 학교평가 보고서").toList
    sections :=
      [ { id := "1", title := some (.jstr "1. 요약 (Executive Summary)".toList),
          content := some (.jstr ("본 보고서는 학교 평가를 위해 실시된 설문조사 결과를 종합적으로 분석한 것입니다. " ++
            "Firebase Cloud Functions 배포 후 실제 데이터 기반의 보고서가 생성됩니다.").toList) },
        { id := "2", title := some (.jstr "2. 조사 개요".toList),
          content := some (.jstr ("조사 기간: 2025년\n조사 대상: 교원, 학부모, 학생\n조사 방법: 온라인 설문\n\n" ++
            "상세 응답 통계는 Functions 배포 후 확인 가능합니다.").toList) },
        { id := "3", title := some (.jstr "3. 주요 발견사항".toList),
          content := some (.jstr ("설문조사 결과 분석을 통해 도출된 주요 발견사항입니다. " ++
            "AI 분석을 통해 주요 키워드, 긍정/부정 의견, 개선 필요사항 등이 자동으로 추출됩니다.").toList) },
        { id := "4", title := some (.jstr "4. 영역별 분석".toList),
          content := some (.jstr
            "교육과정, 학생생활지도, 교원역량, 학교운영 등 각 영역별 상세 분석 결과가 포함됩니다.".toList) },
        { id := "5", title := some (.jstr "5. 강점과 개선점".toList),
          content := some (.jstr ("학교의 강점:\n- 교육과정 운영의 전문성\n- 학생 중심 교육 활동\n\n" ++
            "개선 필요 사항:\n- 행정업무 경감\n- 시설 현대화").toList) },
        { id := "6", title := some (.jstr "6. 제언 및 결론".toList),
          content := some (.jstr ("설문 결과를 바탕으로 한 종합적인 제언과 향후 발전 방향을 제시합니다. " ++
            "Firebase Functions 배포 후 AI가 생성한 맞춤형 제언이 포함됩니다.").toList) } ] }

/-- Whether the first list is an initial segment of the second. -/
def startsWithL : List Char → List Char → Bool
  | [], _ => true
  | _ :: _, [] => false
  | a :: as, b :: bs => a == b && startsWithL as bs

/-- Whether the first list occurs as a contiguous run inside the second
(the JS String.includes test the ReportGenerator applies to the error
message). -/
def hasSub (needle hay : List Char) : Bool :=
  match hay with
  | [] => startsWithL needle []
  | _ :: t => startsWithL needle hay || hasSub needle t

/-- The ReportGenerator's handling of one generateReport call: a success
becomes the displayed report; an error shows the demo report exactly when
its message contains not-found, permission-denied or unauthenticated, and
otherwise leaves no report (only the error toast). -/
def clientHandleReport (schoolName : String) (res : Except HttpsErr GenReport) :
    Option ClientReport :=
  match res with
  | .ok rep => some (clientFromOk schoolName rep)
  | .error e =>
    if hasSub "not-found".toList e.message.toList
        || hasSub "permission-denied".toList e.message.toList
        || hasSub "unauthenticated".toList e.message.toList then
      some (demoReport schoolName)
    else
      none

/-- The concrete post-fetch failure environment of the report claim: the
project exists but the generative service answers free text with no JSON
object in it. -/
def reportEnvNoJson : ReportEnv :=
  { projectExists := true
    schoolName := some "테스트 학교"
    questions := []
    responses := []
    aiResult := .ok "no json here" }

/-- The ten-response scenario of the end-to-end claim: five teacher
ratings 5,4,3,5,4, two parent ratings 2,3, and three further (textual)
responses, here from students. -/
def rs10 : List StatResponse :=
  [ { respondent_type := "teacher", response_value := some "5" },
    { respondent_type := "teacher", response_value := some "4" },
    { respondent_type := "teacher", response_value := some "3" },
    { respondent_type := "teacher", response_value := some "5" },
    { respondent_type := "teacher", response_value := some "4" },
    { respondent_type := "parent", response_value := some "2" },
    { respondent_type := "parent", response_value := some "3" },
    { respondent_type := "student", response_value := some "좋은 학교입니다" },
    { respondent_type := "student", response_value := some "시설 개선을 바랍니다" },
    { respondent_type := "student", response_value := some "만족합니다" } ]

/-! ### Helper lemmas for the aggregation -/

/-- The loadStats loop body coincides with the ratingOf classification. -/
theorem ratingStep_eq (acc : ℚ × Nat) (r : StatResponse) :
    (match r.response_value with
      | some s =>
        if s ≠ "" then
          match parseIntJs s with
          | some n => if 1 ≤ n ∧ n ≤ 5 then (acc.1 + (n : ℚ), acc.2 + 1) else acc
          | none => acc
        else acc
      | none => acc) =
    (match ratingOf r with
      | some n => (acc.1 + (n : ℚ), acc.2 + 1)
      | none => acc) := by
  unfold ratingOf
  cases hv : r.response_value with
  | none => rfl
  | some s =>
    by_cases hs : s = ""
    · simp [hs]
    · simp only [hs, if_true, ne_eq, not_false_iff]
      cases hp : parseIntJs s with
      | none => simp
      | some n =>
        by_cases hn : 1 ≤ n ∧ n ≤ 5
        · simp [hn]
        · simp [hn]

/-- The empty string never parses to a rating, so the truthiness guard in
the loadStats loop is redundant. -/
theorem ratingOf_eq_parsesAsRating (r : StatResponse) :
    ratingOf r = parsesAsRating r := by
  unfold ratingOf parsesAsRating
  cases hv : r.response_value with
  | none => rfl
  | some s =>
    by_cases hs : s = ""
    · subst hs
      simp [parseIntJs, parseDigits]
    · simp [hs]

theorem ratingAccum_go (rs : List StatResponse) :
    ∀ (a : ℚ) (c : Nat),
      rs.foldl
        (fun acc r =>
          match r.response_value with
          | some s =>
            if s ≠ "" then
              match parseIntJs s with
              | some n => if 1 ≤ n ∧ n ≤ 5 then (acc.1 + (n : ℚ), acc.2 + 1) else acc
              | none => acc
            else acc
          | none => acc)
        (a, c) =
      (a + (((ratingsOf rs).sum : ℤ) : ℚ), c + (ratingsOf rs).length) := by
  induction rs with
  | nil => intro a c; simp [ratingsOf]
  | cons r rs ih =>
    intro a c
    rw [List.foldl_cons, ratingStep_eq (a, c) r]
    have hr := ratingOf_eq_parsesAsRating r
    cases hp : parsesAsRating r with
    | none =>
      rw [hr, hp]
      simp only [ratingsOf, List.filterMap_cons, hp]
      exact ih a c
    | some n =>
      rw [hr, hp]
      simp only [ratingsOf, List.filterMap_cons, hp]
      rw [ih (a + (n : ℚ)) (c + 1)]
      simp [ratingsOf]
      constructor
      · ring
      · omega

/-- ratingAccum computes the sum and the count of the ratings. -/
theorem ratingAccum_eq (rs : List StatResponse) :
    ratingAccum rs = ((((ratingsOf rs).sum : ℤ) : ℚ), (ratingsOf rs).length) := by
  unfold ratingAccum
  rw [ratingAccum_go rs 0 0]
  simp

/-! ### Claims C3 to C6 -/

/-- averageRating of loadStats, characterised through the rating list. -/
theorem averageRatingStat_eq_div (rs : List StatResponse) :
    averageRatingStat rs =
      if ratingsOf rs = [] then 0
      else (((ratingsOf rs).sum : ℤ) : ℚ) / ((ratingsOf rs).length : ℚ) := by
  unfold averageRatingStat
  rw [ratingAccum_eq]
  rcases h : ratingsOf rs with _ | ⟨x, xs⟩
  · simp
  · simp

theorem ratingsOf_rs10 : ratingsOf rs10 = [5, 4, 3, 5, 4, 2, 3] := by decide

theorem averageRatingStat_rs10 : averageRatingStat rs10 = 26 / 7 := by
  rw [averageRatingStat_eq_div, ratingsOf_rs10]
  rw [if_neg (by simp)]
  norm_num

theorem grade_rs10 : (convertToGrade (averageRatingStat rs10)).level = .good := by
  rw [averageRatingStat_rs10]
  unfold convertToGrade
  rw [if_neg (by norm_num [gradeThresholds]), if_pos (by norm_num [gradeThresholds])]
  rfl

/-- C3 counterexample: the scenario instance rs10 satisfies the claim's
antecedent (10 responses, teacher ratings 5,4,3,5,4, parent ratings 2,3,
average 26/7, grade good) yet its responsesByType map is not
the two-key map teacher 5 / parent 2: the remaining three responses are
also counted, under their own respondent type. -/
theorem loadStats_responsesByType_counterexample :
    rs10.length = 10 ∧
    ratingsOf rs10 = [5, 4, 3, 5, 4, 2, 3] ∧
    averageRatingStat rs10 = 26 / 7 ∧
    (convertToGrade (averageRatingStat rs10)).level = .good ∧
    typeCount rs10 "student" = 3 ∧
    ¬ (∀ t : String, typeCount rs10 t =
        if t = "teacher" then 5 else if t = "parent" then 2 else 0) := by
  refine ⟨by decide, ratingsOf_rs10, averageRatingStat_rs10, grade_rs10, by decide, ?_⟩
  intro h
  exact absurd (h "student") (by decide)

/-- C3 (amended): averageRating is the sum/count average over exactly the
responses whose value parses (by JS parseInt) to an integer in [1,5], and
0 when there is no such response; on the ten-response scenario it is 26/7
with grade good, and responsesByType counts all ten responses by type:
teacher 5, parent 2 and the remaining three under their own type. -/
theorem loadStats_average_spec :
    (∀ rs : List StatResponse,
      averageRatingStat rs =
        if ratingsOf rs = [] then 0
        else (((ratingsOf rs).sum : ℤ) : ℚ) / ((ratingsOf rs).length : ℚ)) ∧
    averageRatingStat rs10 = 26 / 7 ∧
    (convertToGrade (averageRatingStat rs10)).level = .good ∧
    typeCount rs10 "teacher" = 5 ∧ typeCount rs10 "parent" = 2 ∧
    typeCount rs10 "student" = 3 ∧
    typeCount rs10 "teacher" + typeCount rs10 "parent" + typeCount rs10 "student" =
      rs10.length :=
  ⟨averageRatingStat_eq_div, averageRatingStat_rs10, grade_rs10,
    by decide, by decide, by decide, by decide⟩

/-- C4: the per-type completion rate is defined exactly for the types with
at least one question, there equals round(responses / max(questions,1) * 100),
and lies in [0,100] whenever the type has at least as many questions as
responses. -/
theorem completionRate_spec (qs : List StatQuestion) (rs : List StatResponse) (t : String) :
    ((completionRateStat qs rs t).isSome ↔ questionsByType qs t ≠ 0) ∧
    (∀ v : ℤ, completionRateStat qs rs t = some v →
      v = jsRound ((typeCount rs t : ℚ) / ((max (questionsByType qs t) 1 : ℕ) : ℚ) * 100)) ∧
    (typeCount rs t ≤ questionsByType qs t →
      ∀ v : ℤ, completionRateStat qs rs t = some v → 0 ≤ v ∧ v ≤ 100) := by
  unfold completionRateStat
  by_cases hq : questionsByType qs t = 0
  · simp [hq]
  · have h1 : 1 ≤ questionsByType qs t := Nat.one_le_iff_ne_zero.mpr hq
    have hmax : max (questionsByType qs t) 1 = questionsByType qs t := max_eq_left h1
    refine ⟨by simp [hq], ?_, ?_⟩
    · intro v hv
      simp only [hq, if_false] at hv
      rw [hmax]
      exact (Option.some_inj.mp hv).symm
    · intro hle v hv
      simp only [hq, if_false] at hv
      have hv2 : v = jsRound ((typeCount rs t : ℚ) / (questionsByType qs t : ℚ) * 100) :=
        (Option.some_inj.mp hv).symm
      have hqpos : (0 : ℚ) < (questionsByType qs t : ℚ) := by
        exact_mod_cast Nat.pos_of_ne_zero hq
      have hratio0 : (0 : ℚ) ≤ (typeCount rs t : ℚ) / (questionsByType qs t : ℚ) := by
        positivity

      have hratio1 : (typeCount rs t : ℚ) / (questionsByType qs t : ℚ) ≤ 1 := by
        rw [div_le_one hqpos]
        exact_mod_cast hle
      constructor
      · rw [hv2]
        unfold jsRound
        apply Int.le_floor.mpr
        push_cast
        nlinarith
      · rw [hv2]
        unfold jsRound
        have hlt : (typeCount rs t : ℚ) / (questionsByType qs t : ℚ) * 100 + 1 / 2 <
            ((101 : ℤ) : ℚ) := by
          push_cast
          nlinarith
        have := Int.floor_lt.mpr hlt
        omega

/-- Witness for the completion-rate claim: one teacher question, one
teacher response, completion rate exactly 100, inside [0,100]. -/
theorem completionRate_spec_witness :
    completionRateStat [⟨"teacher"⟩] [⟨"teacher", some "5"⟩] "teacher" = some 100 ∧
    (0 : ℤ) ≤ 100 ∧ (100 : ℤ) ≤ 100 := by
  have hq : questionsByType [⟨"teacher"⟩] "teacher" = 1 := by decide
  have hr : typeCount [⟨"teacher", some "5"⟩] "teacher" = 1 := by decide
  have hval : completionRateStat [⟨"teacher"⟩] [⟨"teacher", some "5"⟩] "teacher" =
      some 100 := by
    unfold completionRateStat
    rw [hq, hr]
    norm_num [jsRound]
  exact ⟨hval,
    (completionRate_spec [⟨"teacher"⟩] [⟨"teacher", some "5"⟩] "teacher").2.2
      (le_of_eq (hr.trans hq.symm)) 100 hval⟩

/-- C5: the grade bins are closed at the lower bound and open at the upper
bound, checked in descending order, so a value equal to a threshold gets
the higher grade; the claimed boundary evaluations hold. -/
theorem convertToGrade_halfOpen :
    (convertToGrade 4.2).level = .excellent ∧
    (convertToGrade 4.1999).level = .good ∧
    (convertToGrade 3.4).level = .good ∧
    (convertToGrade 2.6).level = .average ∧
    (convertToGrade 2.5999).level = .poor ∧
    (∀ x : ℚ,
      ((convertToGrade x).level = .excellent ↔ gradeThresholds.excellent ≤ x) ∧
      ((convertToGrade x).level = .good ↔
        gradeThresholds.good ≤ x ∧ x < gradeThresholds.excellent) ∧
      ((convertToGrade x).level = .average ↔
        gradeThresholds.average ≤ x ∧ x < gradeThresholds.good) ∧
      ((convertToGrade x).level = .poor ↔ x < gradeThresholds.average)) := by
  have e1 : (convertToGrade 4.2).level = .excellent := by
    unfold convertToGrade
    rw [if_pos (by norm_num [gradeThresholds])]
    rfl
  have e2 : (convertToGrade 4.1999).level = .good := by
    unfold convertToGrade
    rw [if_neg (by norm_num [gradeThresholds]), if_pos (by norm_num [gradeThresholds])]
    rfl
  have e3 : (convertToGrade 3.4).level = .good := by
    unfold convertToGrade
    rw [if_neg (by norm_num [gradeThresholds]), if_pos (by norm_num [gradeThresholds])]
    rfl
  have e4 : (convertToGrade 2.6).level = .average := by
    unfold convertToGrade
    rw [if_neg (by norm_num [gradeThresholds]), if_neg (by norm_num [gradeThresholds]),
      if_pos (by norm_num [gradeThresholds])]
    rfl
  have e5 : (convertToGrade 2.5999).level = .poor := by
    unfold convertToGrade
    rw [if_neg (by norm_num [gradeThresholds]), if_neg (by norm_num [gradeThresholds]),
      if_neg (by norm_num [gradeThresholds])]
    rfl
  refine ⟨e1, e2, e3, e4, e5, ?_⟩
  intro x
  unfold convertToGrade
  simp only [gradeThresholds, ge_iff_le]
  split_ifs with h1 h2 h3 <;>
    refine ⟨?_, ?_, ?_, ?_⟩ <;>
    constructor <;>
    intro hh <;>
    (try obtain ⟨ha, hb⟩ := hh) <;>
    first
      | rfl
      | (exact absurd hh (by decide))
      | linarith
      | (exact ⟨by linarith, by linarith⟩)

/-- C6: convertToGrade is monotone non-decreasing under the ordinal
ordering poor < average < good < excellent. -/
theorem convertToGrade_monotone (x y : ℚ) (h : x ≤ y) :
    gradeOrd (convertToGrade x).level ≤ gradeOrd (convertToGrade y).level := by
  unfold convertToGrade
  simp only [gradeThresholds, ge_iff_le]
  split_ifs with h1 h2 h3 h4 h5 h6 h7 h8 h9 h10 h11 h12 <;>
    simp only [gradeInfoMap, gradeOrd] <;>
    first
      | omega
      | (exfalso; linarith)

/-- Witness for monotonicity at the concrete pair 3 ≤ 4. -/
theorem convertToGrade_monotone_witness :
    gradeOrd (convertToGrade 3).level ≤ gradeOrd (convertToGrade 4).level :=
  convertToGrade_monotone 3 4 (by norm_num)

/-! ### JSON serializer and parser lemmas -/

theorem parseStrBody_round (s : List Char) :
    ∀ rest : List Char, parseStrBody (escStr s ++ '"' :: rest) = some (s, rest) := by
  induction s with
  | nil =>
    intro rest
    rw [show escStr [] ++ '"' :: rest = '"' :: rest from rfl]
    rw [parseStrBody.eq_def]
    rfl
  | cons c cs ih =>
    intro rest
    by_cases hc : c = '"' ∨ c = '\\'
    · rw [escStr, if_pos hc]
      simp only [List.cons_append]
      rw [parseStrBody.eq_def]
      show (match parseStrBody (escStr cs ++ '"' :: rest) with
            | some (s, r3) => some (c :: s, r3)
            | none => none) = some (c :: cs, rest)
      rw [ih rest]
    · push_neg at hc
      rw [escStr, if_neg (by tauto)]
      simp only [List.cons_append]
      rw [parseStrBody.eq_def]
      simp only [hc.1, hc.2, if_false]
      rw [ih rest]

theorem isDigitCh_digitToChar (d : Nat) : isDigitCh (digitToChar d) = true := by
  unfold digitToChar
  split_ifs <;> rfl

theorem charToDigit?_digitToChar (d : Nat) (h : d < 10) :
    charToDigit? (digitToChar d) = some d := by
  interval_cases d <;> rfl

theorem digitToChar_good (d : Nat) :
    digitToChar d ≠ ']' ∧ digitToChar d ≠ '}' ∧ digitToChar d ≠ ',' := by
  unfold digitToChar
  split_ifs <;> exact ⟨by decide, by decide, by decide⟩

theorem natChars_ne_nil (m : Nat) : natChars m ≠ [] := by
  unfold natChars
  split_ifs with h
  · simp
  · simp [Nat.digits_ne_nil_iff_ne_zero, h]

theorem natChars_all_digits (m : Nat) : ∀ c ∈ natChars m, isDigitCh c = true := by
  unfold natChars
  split_ifs with h
  · intro c hc
    simp at hc
    subst hc
    rfl
  · intro c hc
    simp only [List.mem_map] at hc
    obtain ⟨d, _, rfl⟩ := hc
    exact isDigitCh_digitToChar d

theorem foldl_digits (B : List Nat) (hB : ∀ d ∈ B, d < 10) :
    ∀ a : Nat,
      List.foldl (fun acc c => 10 * acc + (charToDigit? c).getD 0) a (B.map digitToChar) =
      List.foldl (fun acc d => 10 * acc + d) a B := by
  induction B with
  | nil => intro a; rfl
  | cons d B ih =>
    intro a
    simp only [List.map_cons, List.foldl_cons]
    rw [charToDigit?_digitToChar d (hB d (by simp))]
    exact ih (fun x hx => hB x (by simp [hx])) _

theorem foldl_ofDigits (B : List Nat) :
    ∀ a : Nat,
      List.foldl (fun acc d => 10 * acc + d) a B =
      a * 10 ^ B.length + Nat.ofDigits 10 B.reverse := by
  induction B with
  | nil => intro a; simp [Nat.ofDigits]
  | cons d B ih =>
    intro a
    simp only [List.foldl_cons, List.reverse_cons]
    rw [ih (10 * a + d), Nat.ofDigits_append]
    simp only [List.length_cons, List.length_reverse, Nat.ofDigits_singleton]
    ring

theorem digitsVal_natChars (m : Nat) : digitsVal (natChars m) = m := by
  unfold digitsVal natChars
  split_ifs with h
  · subst h; rfl
  · rw [foldl_digits _ (fun d hd => Nat.digits_lt_base (by norm_num) (List.mem_reverse.mp hd))]
    rw [foldl_ofDigits]
    simp [Nat.ofDigits_digits]

theorem takeWhile_append_all (p : Char → Bool) (l r : List Char)
    (hl : ∀ c ∈ l, p c = true)
    (hr : r = [] ∨ ∃ c t, r = c :: t ∧ p c = false) :
    (l ++ r).takeWhile p = l ∧ (l ++ r).dropWhile p = r := by
  induction l with
  | nil =>
    rcases hr with rfl | ⟨c, t, rfl, hc⟩
    · simp
    · simp [List.takeWhile_cons, List.dropWhile_cons, hc]
  | cons a l ih =>
    have ha : p a = true := hl a (by simp)
    have := ih (fun c hc => hl c (by simp [hc]))
    simp only [List.cons_append, List.takeWhile_cons, List.dropWhile_cons, ha]
    simp [this.1, this.2]

theorem parseDigits_natChars (m : Nat) (rest : List Char) (h : stopOk rest) :
    parseDigits (natChars m ++ rest) = some (m, rest) := by
  have hr : rest = [] ∨ ∃ c t, rest = c :: t ∧ isDigitCh c = false := by
    cases rest with
    | nil => exact Or.inl rfl
    | cons c t => exact Or.inr ⟨c, t, rfl, h⟩
  obtain ⟨htake, hdrop⟩ := takeWhile_append_all isDigitCh (natChars m) rest
    (natChars_all_digits m) hr
  unfold parseDigits
  rw [htake, hdrop]
  rw [if_neg (by simp [List.isEmpty_iff, natChars_ne_nil])]
  rw [digitsVal_natChars]

theorem ser_head_spec (v : Json) :
    ∃ c t, ser v = c :: t ∧ c ≠ ']' ∧ c ≠ '}' ∧ c ≠ ',' := by
  cases v with
  | jnull => exact ⟨'n', ['u', 'l', 'l'], by rw [ser], by decide, by decide, by decide⟩
  | jbool b =>
    cases b with
    | true => exact ⟨'t', ['r', 'u', 'e'], by rw [ser], by decide, by decide, by decide⟩
    | false => exact ⟨'f', ['a', 'l', 's', 'e'], by rw [ser], by decide, by decide, by decide⟩
  | jnum n =>
    rw [ser]
    unfold intChars
    by_cases hn : n < 0
    · rw [if_pos hn]
      exact ⟨'-', _, rfl, by decide, by decide, by decide⟩
    · rw [if_neg hn]
      unfold natChars
      by_cases hm : n.natAbs = 0
      · rw [if_pos hm]
        exact ⟨'0', _, rfl, by decide, by decide, by decide⟩
      · rw [if_neg hm]
        have hne : (Nat.digits 10 n.natAbs).reverse ≠ [] := by
          simp [Nat.digits_ne_nil_iff_ne_zero, hm]
        obtain ⟨d, L, hL⟩ := List.exists_cons_of_ne_nil hne
        rw [hL]
        simp only [List.map_cons]
        exact ⟨digitToChar d, _, rfl, (digitToChar_good d).1, (digitToChar_good d).2.1,
          (digitToChar_good d).2.2⟩
  | jstr s =>
    exact ⟨'"', escStr s ++ ['"'], by rw [ser]; simp, by decide, by decide, by decide⟩
  | jarr xs =>
    cases xs with
    | nil => exact ⟨'[', [']'], by rw [ser], by decide, by decide, by decide⟩
    | cons x xs =>
      exact ⟨'[', serElems x xs ++ [']'], by rw [ser]; simp, by decide, by decide, by decide⟩
  | jobj kvs =>
    cases kvs with
    | nil => exact ⟨'{', ['}'], by rw [ser], by decide, by decide, by decide⟩
    | cons kv kvs =>
      exact ⟨'{', serMembers kv kvs ++ ['}'], by rw [ser]; simp, by decide, by decide, by decide⟩

theorem ser_length_pos (v : Json) : 1 ≤ (ser v).length := by
  obtain ⟨c, t, he, _, _, _⟩ := ser_head_spec v
  rw [he]
  simp

theorem serElems_head (x : Json) (xs : List Json) (A : List Char) :
    ∃ c t, serElems x xs ++ A = c :: t ∧ c ≠ ']' ∧ c ≠ '}' ∧ c ≠ ',' := by
  obtain ⟨c, t, he, h1, h2, h3⟩ := ser_head_spec x
  cases xs with
  | nil => exact ⟨c, t ++ A, by rw [serElems, he]; simp, h1, h2, h3⟩
  | cons y ys =>
    refine ⟨c, t ++ ',' :: serElems y ys ++ A, ?_, h1, h2, h3⟩
    rw [serElems, he]
    simp

theorem headIs_serElems_closeBracket (x : Json) (xs : List Json) (A : List Char) :
    headIs (serElems x xs ++ A) ']' = false := by
  obtain ⟨c, t, he, h1, _, _⟩ := serElems_head x xs A
  rw [he]
  unfold headIs
  exact beq_eq_false_iff_ne.mpr h1

/-! Stepping equations for the parser on concrete input heads. -/

theorem parseVal_null (f : Nat) (r : List Char) :
    parseVal (f + 1) ('n' :: 'u' :: 'l' :: 'l' :: r) = some (.jnull, r) := rfl

theorem parseVal_true (f : Nat) (r : List Char) :
    parseVal (f + 1) ('t' :: 'r' :: 'u' :: 'e' :: r) = some (.jbool true, r) := rfl

theorem parseVal_false (f : Nat) (r : List Char) :
    parseVal (f + 1) ('f' :: 'a' :: 'l' :: 's' :: 'e' :: r) = some (.jbool false, r) := rfl

theorem parseVal_quote (f : Nat) (r : List Char) :
    parseVal (f + 1) ('"' :: r) =
      (match parseStrBody r with
       | some (str, r3) => some (.jstr str, r3)
       | none => none) := rfl

theorem parseVal_dash (f : Nat) (r : List Char) :
    parseVal (f + 1) ('-' :: r) =
      (match parseDigits r with
       | some (m, r3) => some (.jnum (-(m : ℤ)), r3)
       | none => none) := rfl

theorem parseVal_digit (f : Nat) (c : Char) (r : List Char) (h : isDigitCh c = true) :
    parseVal (f + 1) (c :: r) =
      (match parseDigits (c :: r) with
       | some (m, r2) => some (.jnum (m : ℤ), r2)
       | none => none) := by
  simp only [parseVal]
  rw [if_pos h]

theorem parseVal_arrnil (f : Nat) (r : List Char) :
    parseVal (f + 1) ('[' :: ']' :: r) = some (.jarr [], r) := rfl

theorem parseVal_arr (f : Nat) (r : List Char) (h : headIs r ']' = false) :
    parseVal (f + 1) ('[' :: r) =
      (match parseElems f r with
       | some (xs, r3) => some (.jarr xs, r3)
       | none => none) := by
  have e : parseVal (f + 1) ('[' :: r) =
      (if headIs r ']' then some (Json.jarr [], r.tail)
       else
         match parseElems f r with
         | some (xs, r3) => some (.jarr xs, r3)
         | none => none) := rfl
  rw [e, h]
  simp

theorem parseVal_objnil (f : Nat) (r : List Char) :
    parseVal (f + 1) ('{' :: '}' :: r) = some (.jobj [], r) := rfl

theorem parseVal_obj (f : Nat) (r : List Char) (h : headIs r '}' = false) :
    parseVal (f + 1) ('{' :: r) =
      (match parseMembers f r with
       | some (kvs, r3) => some (.jobj kvs, r3)
       | none => none) := by
  have e : parseVal (f + 1) ('{' :: r) =
      (if headIs r '}' then some (Json.jobj [], r.tail)
       else
         match parseMembers f r with
         | some (kvs, r3) => some (.jobj kvs, r3)
         | none => none) := rfl
  rw [e, h]
  simp

theorem parseElems_succ (f : Nat) (s : List Char) :
    parseElems (f + 1) s =
      (match parseVal f s with
       | none => none
       | some (v, r) =>
         match r with
         | ',' :: r2 =>
           (match parseElems f r2 with
            | some (xs, r3) => some (v :: xs, r3)
            | none => none)
         | ']' :: r2 => some ([v], r2)
         | _ => none) := rfl

theorem parseMembers_quote (f : Nat) (r : List Char) :
    parseMembers (f + 1) ('"' :: r) =
      (match parseStrBody r with
       | some (k, r1) =>
         match r1 with
         | ':' :: r2 =>
           (match parseVal f r2 with
            | some (v, r3) =>
              match r3 with
              | ',' :: r4 =>
                (match parseMembers f r4 with
                 | some (kvs, r5) => some ((k, v) :: kvs, r5)
                 | none => none)
              | '}' :: r4 => some ([(k, v)], r4)
              | _ => none
            | none => none)
         | _ => none
       | none => none) := rfl

theorem stopOk_cons (c : Char) (t : List Char) (h : isDigitCh c = false) :
    stopOk (c :: t) := h

theorem natChars_head (m : Nat) :
    ∃ c t, natChars m = c :: t ∧ isDigitCh c = true := by
  obtain ⟨c, t, h⟩ := List.exists_cons_of_ne_nil (natChars_ne_nil m)
  exact ⟨c, t, h, natChars_all_digits m c (by rw [h]; simp)⟩

theorem serMembers_head (kv : List Char × Json) (kvs : List (List Char × Json)) :
    ∃ t, serMembers kv kvs = '"' :: t := by
  obtain ⟨k, v⟩ := kv
  cases kvs with
  | nil => exact ⟨escStr k ++ '"' :: ':' :: ser v, by rw [serMembers]; simp⟩
  | cons kv2 kvs =>
    exact ⟨escStr k ++ '"' :: ':' :: ser v ++ ',' :: serMembers kv2 kvs,
      by rw [serMembers]; simp⟩

theorem headIs_serMembers_closeBrace (kv : List Char × Json)
    (kvs : List (List Char × Json)) (A : List Char) :
    headIs (serMembers kv kvs ++ A) '}' = false := by
  obtain ⟨t, ht⟩ := serMembers_head kv kvs
  rw [ht]
  rfl

/-- Round trip of the serialized grammar through the fueled parser: with
enough fuel, parsing the serialization of a value followed by a
non-digit-headed remainder yields the value and the remainder. -/
theorem parse_ser_round (fuel : Nat) :
    (∀ (v : Json) (rest : List Char), (ser v).length ≤ fuel → stopOk rest →
      parseVal fuel (ser v ++ rest) = some (v, rest)) ∧
    (∀ (x : Json) (xs : List Json) (rest : List Char),
      (serElems x xs).length < fuel →
      parseElems fuel (serElems x xs ++ ']' :: rest) = some (x :: xs, rest)) ∧
    (∀ (kv : List Char × Json) (kvs : List (List Char × Json)) (rest : List Char),
      (serMembers kv kvs).length < fuel →
      parseMembers fuel (serMembers kv kvs ++ '}' :: rest) = some (kv :: kvs, rest)) := by
  induction fuel using Nat.strong_induction_on with
  | _ fuel IH =>
  refine ⟨?_, ?_, ?_⟩
  · intro v rest hlen hstop
    have hpos := ser_length_pos v
    obtain ⟨f, rfl⟩ : ∃ f, fuel = f + 1 := ⟨fuel - 1, by omega⟩
    cases v with
    | jnull =>
      rw [ser]
      exact parseVal_null f rest
    | jbool b =>
      cases b with
      | true =>
        rw [ser]
        exact parseVal_true f rest
      | false =>
        rw [ser]
        exact parseVal_false f rest
    | jnum n =>
      rw [ser]
      unfold intChars
      by_cases hn : n < 0
      · rw [if_pos hn]
        rw [show ('-' :: natChars n.natAbs) ++ rest = '-' :: (natChars n.natAbs ++ rest)
          from rfl]
        rw [parseVal_dash]
        rw [parseDigits_natChars n.natAbs rest hstop]
        simp only [Option.some.injEq, Prod.mk.injEq, Json.jnum.injEq]
        exact ⟨by omega, trivial⟩
      · rw [if_neg hn]
        obtain ⟨c, t, hnat, hc⟩ := natChars_head n.natAbs
        rw [hnat, List.cons_append]
        rw [parseVal_digit f c (t ++ rest) hc]
        rw [← List.cons_append, ← hnat]
        rw [parseDigits_natChars n.natAbs rest hstop]
        simp only [Option.some.injEq, Prod.mk.injEq, Json.jnum.injEq]
        exact ⟨by omega, trivial⟩
    | jstr s =>
      rw [ser]
      rw [show ('"' :: escStr s ++ ['"']) ++ rest = '"' :: (escStr s ++ '"' :: rest)
        from by simp]
      rw [parseVal_quote]
      rw [parseStrBody_round s rest]
    | jarr xs =>
      cases xs with
      | nil =>
        rw [ser]
        exact parseVal_arrnil f rest
      | cons x xs =>
        rw [ser] at hlen ⊢
        have hlen2 : (serElems x xs).length < f := by
          simp only [List.length_cons, List.length_append, List.length_singleton] at hlen
          omega
        rw [show ('[' :: serElems x xs ++ [']']) ++ rest =
            '[' :: (serElems x xs ++ ']' :: rest) from by simp]
        rw [parseVal_arr f _ (headIs_serElems_closeBracket x xs _)]
        rw [(IH f (by omega)).2.1 x xs rest hlen2]
    | jobj kvs =>
      cases kvs with
      | nil =>
        rw [ser]
        exact parseVal_objnil f rest
      | cons kv kvs =>
        rw [ser] at hlen ⊢
        have hlen2 : (serMembers kv kvs).length < f := by
          simp only [List.length_cons, List.length_append, List.length_singleton] at hlen
          omega
        rw [show ('{' :: serMembers kv kvs ++ ['}']) ++ rest =
            '{' :: (serMembers kv kvs ++ '}' :: rest) from by simp]
        rw [parseVal_obj f _ (headIs_serMembers_closeBrace kv kvs _)]
        rw [(IH f (by omega)).2.2 kv kvs rest hlen2]
  · intro x xs rest hlen
    obtain ⟨f, rfl⟩ : ∃ f, fuel = f + 1 := ⟨fuel - 1, by omega⟩
    rw [parseElems_succ]
    cases xs with
    | nil =>
      rw [serElems] at hlen ⊢
      have hA := (IH f (by omega)).1 x (']' :: rest) (by omega) (stopOk_cons _ _ rfl)
      rw [hA]
      rfl
    | cons y ys =>
      rw [serElems] at hlen ⊢
      have hx := ser_length_pos x
      have hlen2 : (ser x).length + 1 + (serElems y ys).length < f + 1 := by
        simp only [List.length_append, List.length_cons] at hlen
        omega
      rw [show (ser x ++ ',' :: serElems y ys) ++ ']' :: rest =
          ser x ++ (',' :: (serElems y ys ++ ']' :: rest)) from by simp]
      have hA := (IH f (by omega)).1 x (',' :: (serElems y ys ++ ']' :: rest))
        (by omega) (stopOk_cons _ _ rfl)
      rw [hA]
      show (match parseElems f (serElems y ys ++ ']' :: rest) with
            | some (xs, r3) => some (x :: xs, r3)
            | none => none) = some (x :: y :: ys, rest)
      have hB := (IH f (by omega)).2.1 y ys rest (by omega)
      rw [hB]
  · intro kv kvs rest hlen
    obtain ⟨f, rfl⟩ : ∃ f, fuel = f + 1 := ⟨fuel - 1, by omega⟩
    obtain ⟨k, v⟩ := kv
    cases kvs with
    | nil =>
      rw [serMembers] at hlen ⊢
      have hv : (ser v).length ≤ f := by
        simp only [List.length_cons, List.length_append] at hlen
        omega
      rw [show ('"' :: escStr k ++ '"' :: ':' :: ser v) ++ '}' :: rest =
          '"' :: (escStr k ++ '"' :: (':' :: (ser v ++ '}' :: rest))) from by simp]
      rw [parseMembers_quote]
      rw [parseStrBody_round k (':' :: (ser v ++ '}' :: rest))]
      show (match parseVal f (ser v ++ '}' :: rest) with
            | some (v2, r3) =>
              match r3 with
              | ',' :: r4 =>
                (match parseMembers f r4 with
                 | some (kvs2, r5) => some ((k, v2) :: kvs2, r5)
                 | none => none)
              | '}' :: r4 => some ([(k, v2)], r4)
              | _ => none
            | none => none) = some ([(k, v)], rest)
      have hA := (IH f (by omega)).1 v ('}' :: rest) hv (stopOk_cons _ _ rfl)
      rw [hA]
      rfl
    | cons kv2 kvs =>
      rw [serMembers] at hlen ⊢
      have hvpos := ser_length_pos v
      have hlens : (escStr k).length + 3 + (ser v).length + 1 +
          (serMembers kv2 kvs).length < f + 1 := by
        simp only [List.length_cons, List.length_append] at hlen
        omega
      rw [show (('"' :: escStr k ++ '"' :: ':' :: ser v) ++ ',' :: serMembers kv2 kvs) ++
            '}' :: rest =
          '"' :: (escStr k ++ '"' :: (':' :: (ser v ++
            ',' :: (serMembers kv2 kvs ++ '}' :: rest)))) from by simp]
      rw [parseMembers_quote]
      rw [parseStrBody_round k (':' :: (ser v ++ ',' :: (serMembers kv2 kvs ++ '}' :: rest)))]
      show (match parseVal f (ser v ++ ',' :: (serMembers kv2 kvs ++ '}' :: rest)) with
            | some (v2, r3) =>
              match r3 with
              | ',' :: r4 =>
                (match parseMembers f r4 with
                 | some (kvs2, r5) => some ((k, v2) :: kvs2, r5)
                 | none => none)
              | '}' :: r4 => some ([(k, v2)], r4)
              | _ => none
            | none => none) = some ((k, v) :: kv2 :: kvs, rest)
      have hA := (IH f (by omega)).1 v (',' :: (serMembers kv2 kvs ++ '}' :: rest))
        (by omega) (stopOk_cons _ _ rfl)
      rw [hA]
      show (match parseMembers f (serMembers kv2 kvs ++ '}' :: rest) with
            | some (kvs2, r5) => some ((k, v) :: kvs2, r5)
            | none => none) = some ((k, v) :: kv2 :: kvs, rest)
      have hC := (IH f (by omega)).2.2 kv2 kvs rest (by omega)
      rw [hC]

/-- Parsing the serialization of any JSON value recovers the value. -/
theorem parseJson_ser (v : Json) : parseJson (ser v) = some v := by
  have h := (parse_ser_round (ser v).length).1 v [] le_rfl trivial
  rw [List.append_nil] at h
  unfold parseJson
  rw [h]

/-! ### Brace-span extraction lemmas -/

theorem afterFirstBrace_append :
    ∀ (pre : List Char), '{' ∉ pre → ∀ s, afterFirstBrace (pre ++ s) = afterFirstBrace s := by
  intro pre
  induction pre with
  | nil => intro _ s; rfl
  | cons c p ih =>
    intro h s
    have hc : ¬ c = '{' := fun hh => h (by simp [hh])
    have hp : '{' ∉ p := fun hm => h (List.mem_cons_of_mem c hm)
    simp only [List.cons_append]
    rw [afterFirstBrace.eq_def]
    simp only [hc, if_false]
    exact ih hp s

theorem afterFirstBrace_cons_brace (u : List Char) :
    afterFirstBrace ('{' :: u) = some ('{' :: u) := by
  rw [afterFirstBrace.eq_def]
  rfl

theorem upToLastClose_spec (b0 post : List Char) (hpost : '}' ∉ post) :
    upToLastClose ((b0 ++ ['}']) ++ post) = some (b0 ++ ['}']) := by
  unfold upToLastClose
  have hrev : ((b0 ++ ['}']) ++ post).reverse = post.reverse ++ ('}' :: b0.reverse) := by
    simp
  rw [hrev]
  have hall : ∀ c ∈ post.reverse, (!(c == '}')) = true := by
    intro c hc
    have hne : c ≠ '}' := fun hh => hpost (by rw [← hh]; exact List.mem_reverse.mp hc)
    simp [hne]
  have hdrop := (takeWhile_append_all (fun c => !(c == '}')) post.reverse
    ('}' :: b0.reverse) hall (Or.inr ⟨'}', b0.reverse, rfl, by simp⟩)).2
  rw [hdrop]
  simp

theorem ser_jobj_shape (kvs : List (List Char × Json)) :
    ∃ b0, ser (Json.jobj kvs) = ('{' :: b0) ++ ['}'] := by
  cases kvs with
  | nil => exact ⟨[], by rw [ser]; rfl⟩
  | cons kv kvs => exact ⟨serMembers kv kvs, by rw [ser]⟩

theorem extractSpan_embed (kvs : List (List Char × Json)) (pre post : List Char)
    (hpre : '{' ∉ pre) (hpost : '}' ∉ post) :
    extractSpan (pre ++ ser (.jobj kvs) ++ post) = some (ser (.jobj kvs)) := by
  obtain ⟨b0, hb⟩ := ser_jobj_shape kvs
  have h1 : afterFirstBrace (pre ++ ser (.jobj kvs) ++ post) =
      some (ser (.jobj kvs) ++ post) := by
    rw [List.append_assoc]
    rw [afterFirstBrace_append pre hpre _]
    rw [hb]
    rw [show (('{' :: b0) ++ ['}']) ++ post = '{' :: ((b0 ++ ['}']) ++ post) from by simp]
    rw [afterFirstBrace_cons_brace]
  unfold extractSpan
  rw [h1]
  show upToLastClose (ser (.jobj kvs) ++ post) = some (ser (.jobj kvs))
  rw [hb]
  exact upToLastClose_spec ('{' :: b0) post hpost

theorem dropWhile_head_false (p : Char → Bool) :
    ∀ (l : List Char) (c : Char) (r : List Char), l.dropWhile p = c :: r → p c = false := by
  intro l
  induction l with
  | nil => intro c r h; simp at h
  | cons a l ih =>
    intro c r h
    by_cases hp : p a
    · rw [List.dropWhile_cons, if_pos hp] at h
      exact ih c r h
    · rw [List.dropWhile_cons, if_neg hp] at h
      obtain ⟨rfl, -⟩ := List.cons.injEq .. ▸ h
      · simpa using hp

theorem afterFirstBrace_some :
    ∀ (s t : List Char), afterFirstBrace s = some t →
      ∃ l u, s = l ++ '{' :: u ∧ t = '{' :: u := by
  intro s
  induction s with
  | nil => intro t h; rw [afterFirstBrace.eq_def] at h; simp at h
  | cons c r ih =>
    intro t h
    rw [afterFirstBrace.eq_def] at h
    by_cases hc : c = '{'
    · subst hc
      simp at h
      exact ⟨[], r, rfl, h.symm⟩
    · simp only [hc, if_false] at h
      obtain ⟨l, u, rfl, ht⟩ := ih t h
      exact ⟨c :: l, u, by simp, ht⟩

theorem upToLastClose_some (s b : List Char) (h : upToLastClose s = some b) :
    ∃ tail b0, s = b ++ tail ∧ b = b0 ++ ['}'] := by
  unfold upToLastClose at h
  rcases hdw : s.reverse.dropWhile (fun c => !(c == '}')) with _ | ⟨c, r⟩
  · rw [hdw] at h; simp at h
  · rw [hdw] at h
    have h2 : some ((c :: r).reverse) = some b := h
    have hb : b = (c :: r).reverse := (Option.some_inj.mp h2).symm
    have hc : (!(c == '}')) = false := dropWhile_head_false _ _ c r hdw
    have hc2 : c = '}' := by simpa using hc
    have hsplit : s.reverse = s.reverse.takeWhile (fun c => !(c == '}')) ++ (c :: r) := by
      conv_lhs => rw [← List.takeWhile_append_dropWhile (p := fun c => !(c == '}'))
        (l := s.reverse)]
      rw [hdw]
    have hs : s = (c :: r).reverse ++ (s.reverse.takeWhile (fun c => !(c == '}'))).reverse := by
      have h3 : s.reverse.reverse =
          (s.reverse.takeWhile (fun c => !(c == '}')) ++ (c :: r)).reverse := by
        rw [← hsplit]
      rw [List.reverse_reverse] at h3
      conv_lhs => rw [h3]
      rw [List.reverse_append]
    refine ⟨(s.reverse.takeWhile (fun c => !(c == '}'))).reverse, r.reverse, ?_, ?_⟩
    · rw [hb]
      exact hs
    · rw [hb, hc2]
      simp

theorem extractSpan_some_hasSpan (s span : List Char) (h : extractSpan s = some span) :
    ∃ l m r, s = l ++ '{' :: m ++ '}' :: r := by
  unfold extractSpan at h
  rcases haf : afterFirstBrace s with _ | t
  · rw [haf] at h; simp at h
  · rw [haf] at h
    have h2 : upToLastClose t = some span := h
    obtain ⟨l, u, rfl, rfl⟩ := afterFirstBrace_some _ t haf
    obtain ⟨tail, b0, hsp, rfl⟩ := upToLastClose_some _ _ h2
    cases b0 with
    | nil => simp at hsp
    | cons c0 b0 =>
      have hsp2 : '{' :: u = c0 :: (b0 ++ '}' :: tail) := by
        rw [hsp]
        simp
      have hinj := List.cons_eq_cons.mp hsp2
      refine ⟨l, b0, tail, ?_⟩
      rw [hinj.2]
      simp

theorem noSpan_of_noBrace (s : List Char) (h : '{' ∉ s) :
    ¬ ∃ l m r, s = l ++ '{' :: m ++ '}' :: r := by
  rintro ⟨l, m, r, rfl⟩
  exact h (by simp)

/-! ### Claims C7 and C8 -/

/-- C7: for every structured (object) payload rendered into model output
as brace-free preamble, the JSON serialization of the payload, and a
brace-free trailer, the structured-output parser extracts the widest
brace-delimited span (exactly the serialization) and recovers the payload. -/
theorem parseStructuredOutput_roundtrip (kvs : List (List Char × Json))
    (pre post : List Char)
    (h1 : '{' ∉ pre) (_h2 : '}' ∉ pre) (_h3 : '{' ∉ post) (h4 : '}' ∉ post) :
    extractSpan (pre ++ ser (.jobj kvs) ++ post) = some (ser (.jobj kvs)) ∧
    parseStructuredOutputL (pre ++ ser (.jobj kvs) ++ post) = some (.jobj kvs) := by
  have he := extractSpan_embed kvs pre post h1 h4
  refine ⟨he, ?_⟩
  unfold parseStructuredOutputL
  rw [he]
  show parseJson (ser (.jobj kvs)) = some (.jobj kvs)
  exact parseJson_ser _

/-- Round-trip witness on a concrete preamble, payload and trailer. -/
theorem parseStructuredOutput_roundtrip_witness :
    parseStructuredOutputL ("Here is the report: ".toList ++
        ser (.jobj [("title".toList, .jstr "ok".toList)]) ++ " end of output".toList) =
      some (.jobj [("title".toList, .jstr "ok".toList)]) :=
  (parseStructuredOutput_roundtrip [("title".toList, Json.jstr "ok".toList)]
    "Here is the report: ".toList " end of output".toList
    (by decide) (by decide) (by decide) (by decide)).2

/-- C8: on input with no brace-delimited span the structured-output parser
fails (none models the thrown malformed-output error) instead of
returning a payload. -/
theorem parseStructuredOutput_malformed (s : String)
    (h : ¬ ∃ l m r, s.toList = l ++ '{' :: m ++ '}' :: r) :
    parseStructuredOutput s = none := by
  unfold parseStructuredOutput parseStructuredOutputL
  rcases he : extractSpan s.toList with _ | span
  · rfl
  · exact absurd (extractSpan_some_hasSpan _ span he) h

/-- Failure witness on the concrete claim input. -/
theorem parseStructuredOutput_malformed_witness :
    parseStructuredOutput "no braces here" = none :=
  parseStructuredOutput_malformed "no braces here"
    (noSpan_of_noBrace _ (by decide))

/-! ### Claim C2 -/

theorem textResponsesOf_survey (l : List SurveyInsert) :
    textResponsesOf (l.map surveyToDoc) = [] := by
  unfold textResponsesOf
  rw [List.filter_eq_nil_iff]
  intro a ha
  obtain ⟨i, _, rfl⟩ := List.mem_map.mp ha
  simp [surveyToDoc, jsTruthy]

theorem ratingResponsesOf_survey (l : List SurveyInsert) :
    ratingResponsesOf (l.map surveyToDoc) = l.map surveyToDoc := by
  unfold ratingResponsesOf
  rw [List.filter_eq_self]
  intro a ha
  obtain ⟨i, _, rfl⟩ := List.mem_map.mp ha
  simp [surveyToDoc, jsNeNull]

/-- C2: on survey-produced documents (which only ever carry
response_value), analyzeResponses classifies no response as a text
response and every response as a rating response, so its textResponses
count is 0 and its ratingResponses count is the full response count. -/
theorem surveyResponses_classification (l : List SurveyInsert) :
    textResponsesOf (l.map surveyToDoc) = [] ∧
    ratingResponsesOf (l.map surveyToDoc) = l.map surveyToDoc ∧
    (∀ (pid : String) (env : AnalyzeEnv) (out : AnalyzeOut),
      env.responses = l.map surveyToDoc →
      serverAnalyzeResponses (some pid) env = .ok out →
      out.textResponses = 0 ∧ out.ratingResponses = l.length) := by
  refine ⟨textResponsesOf_survey l, ratingResponsesOf_survey l, ?_⟩
  intro pid env out hresp hok
  simp only [serverAnalyzeResponses] at hok
  split at hok
  · simp at hok
  · split at hok
    · simp at hok
    · split at hok
      · simp at hok
      · split at hok
        · simp at hok
        · split at hok
          · simp at hok
          · injection hok with h2
            rw [← h2]
            constructor
            · show (textResponsesOf env.responses).length = 0
              rw [hresp, textResponsesOf_survey l]
              rfl
            · show (ratingResponsesOf env.responses).length = l.length
              rw [hresp, ratingResponsesOf_survey l]
              simp

/-- Witness: one survey-produced rating response through a successful
analysis run. -/
theorem surveyResponses_classification_witness :
    textResponsesOf ([⟨"p", "q", "teacher", "5", "s"⟩].map surveyToDoc) = [] ∧
    (({ analysis := .jobj [],
        totalResponses := 1,
        textResponses := 0,
        ratingResponses := 1 } : AnalyzeOut).textResponses = 0 ∧
      ({ analysis := .jobj [],
         totalResponses := 1,
         textResponses := 0,
         ratingResponses := 1 } : AnalyzeOut).ratingResponses =
        ([(⟨"p", "q", "teacher", "5", "s"⟩ : SurveyInsert)]).length) := by
  refine ⟨(surveyResponses_classification [⟨"p", "q", "teacher", "5", "s"⟩]).1, ?_⟩
  exact (surveyResponses_classification [⟨"p", "q", "teacher", "5", "s"⟩]).2.2 "p1"
    { projectExists := true,
      responses := [⟨"p", "q", "teacher", "5", "s"⟩].map surveyToDoc,
      aiResult := .ok "\x7b\x7d" }
    { analysis := .jobj [], totalResponses := 1, textResponses := 0, ratingResponses := 1 }
    rfl rfl

/-! ### Claim C9 -/

/-- C9 (code evaluated at the failing inputs): a missing projectId is
surfaced as invalid-argument from outside the try block, but a missing
project and an empty response set — although thrown as not-found
HttpsErrors — are caught by each function's own catch-all and reach the
caller rewrapped as internal errors, not as not-found. -/
theorem notFound_wrapped_internal :
    serverAnalyzeResponses none
      { projectExists := true, responses := [], aiResult := .ok "" } =
      .error { code := .invalidArgument, message := "프로젝트 ID가 필요합니다." } ∧
    serverGenerateReport none
      { projectExists := true, schoolName := none, questions := [], responses := [],
        aiResult := .ok "" } =
      .error { code := .invalidArgument, message := "프로젝트 ID가 필요합니다." } ∧
    serverAnalyzeResponses (some "p1")
      { projectExists := false, responses := [], aiResult := .ok "" } =
      .error { code := .internal,
               message := wrapAnalyzeErr "Error: 프로젝트를 찾을 수 없습니다." } ∧
    serverGenerateReport (some "p1")
      { projectExists := false, schoolName := none, questions := [], responses := [],
        aiResult := .ok "" } =
      .error { code := .internal,
               message := wrapReportErr "Error: 프로젝트를 찾을 수 없습니다." } ∧
    serverAnalyzeResponses (some "p1")
      { projectExists := true, responses := [], aiResult := .ok "" } =
      .error { code := .internal,
               message := wrapAnalyzeErr "Error: 분석할 응답이 없습니다." } :=
  ⟨rfl, rfl, rfl, rfl, rfl⟩

/-! ### Claim C1 -/

/-- C1 counterexample: with the project present and the generative service
returning text with no JSON object, generateReport terminates with a
surfaced internal error and the client ends up with no report at all — the
deterministic six-section fallback is not produced for this post-fetch
failure. -/
theorem reportFallback_counterexample :
    serverGenerateReport (some "p1") reportEnvNoJson =
      .error { code := .internal,
               message := wrapReportErr "Error: AI 응답에서 JSON을 추출할 수 없습니다." } ∧
    clientHandleReport "테스트 학교" (serverGenerateReport (some "p1") reportEnvNoJson) =
      none :=
  ⟨rfl, rfl⟩

/-- C1 (amended): after a successful fetch, a generative-service failure or
unparsable model output makes generateReport surface an internal error
(no fallback report from the pipeline); the client substitutes its fixed
demo report — six sections, non-empty title — only when the error message
contains not-found (or permission-denied / unauthenticated). -/
theorem generateReport_fallback_amended :
    (∀ (pid : String) (env : ReportEnv) (m : String),
      env.projectExists = true → env.aiResult = .error m →
      serverGenerateReport (some pid) env =
        .error { code := .internal, message := wrapReportErr m }) ∧
    (∀ (pid : String) (env : ReportEnv) (t : String),
      env.projectExists = true → env.aiResult = .ok t → extractSpan t.toList = none →
      serverGenerateReport (some pid) env =
        .error { code := .internal,
                 message := wrapReportErr "Error: AI 응답에서 JSON을 추출할 수 없습니다." }) ∧
    (∀ schoolName : String,
      (demoReport schoolName).sections.length = 6 ∧
      (demoReport schoolName).title = .jstr (schoolName ++ " 학교평가 보고서").toList ∧
      (schoolName ++ " 학교평가 보고서").toList ≠ []) ∧
    (∀ (schoolName : String) (e : HttpsErr),
      hasSub "not-found".toList e.message.toList = true →
      clientHandleReport schoolName (.error e) = some (demoReport schoolName)) := by
  refine ⟨?_, ?_, ?_, ?_⟩
  · intro pid env m hpe hai
    simp only [serverGenerateReport, hai]
    rw [if_neg (by simp [hpe])]
  · intro pid env t hpe hai hex
    simp only [serverGenerateReport, hai, hex]
    rw [if_neg (by simp [hpe])]
  · intro schoolName
    refine ⟨rfl, rfl, ?_⟩
    show schoolName.toList ++ (" 학교평가 보고서" : String).toList ≠ []
    intro h
    exact absurd (List.append_eq_nil.mp h).2 (by decide)
  · intro schoolName e he
    simp only [clientHandleReport]
    rw [he]
    simp

/-- Witness for the amended report-fallback claim: a concrete generative
failure surfaces internal, and the demo report has six sections. -/
theorem generateReport_fallback_amended_witness :
    serverGenerateReport (some "p1")
      { projectExists := true, schoolName := none, questions := [], responses := [],
        aiResult := .error "Error: fetch failed" } =
      .error { code := .internal, message := wrapReportErr "Error: fetch failed" } ∧
    (demoReport "테스트 학교").sections.length = 6 :=
  ⟨generateReport_fallback_amended.1 "p1"
      { projectExists := true, schoolName := none, questions := [], responses := [],
        aiResult := .error "Error: fetch failed" } "Error: fetch failed" rfl rfl,
    (generateReport_fallback_amended.2.2.1 "테스트 학교").1⟩

/-! ### Claim C10 -/

theorem reportCompletionRate_zeroQ (r : Nat) :
    reportCompletionRate r 0 = (if r = 0 then JsNum.nan else JsNum.posInf) := by
  unfold reportCompletionRate
  by_cases hr : r = 0
  · subst hr
    norm_num [jsDiv, jsMul, jsRoundN]
  · rw [if_neg hr]
    have hrq : ¬ ((r : ℚ) = 0) := by exact_mod_cast hr
    have hrpos : (0 : ℚ) < (r : ℚ) := by
      exact_mod_cast Nat.pos_of_ne_zero hr
    norm_num [jsDiv, jsMul, jsRoundN, hrq, hrpos]

/-- C10: when generateReport succeeds on a project with zero questions,
the returned statistics.completionRate is computed with a zero divisor
and is not a finite percentage: NaN with no responses, positive infinity
otherwise. -/
theorem reportCompletionRate_zero_questions (pid : String) (env : ReportEnv)
    (rep : GenReport) (hq : env.questions = [])
    (hok : serverGenerateReport (some pid) env = .ok rep) :
    rep.completionRate = (if env.responses.length = 0 then JsNum.nan else JsNum.posInf) ∧
    (∀ p : ℚ, rep.completionRate ≠ JsNum.fin p) := by
  have hcr : rep.completionRate =
      reportCompletionRate env.responses.length env.questions.length := by
    simp only [serverGenerateReport] at hok
    split at hok
    · simp at hok
    · split at hok
      · simp at hok
      · split at hok
        · simp at hok
        · split at hok
          · simp at hok
          · injection hok with h2
            rw [← h2]
  rw [hcr, hq]
  simp only [List.length_nil]
  rw [reportCompletionRate_zeroQ]
  constructor
  · rfl
  · intro p
    by_cases hr : env.responses.length = 0 <;> simp [hr]

/-- Witness: a successful generateReport run over zero questions yields a
NaN completion rate. -/
theorem reportCompletionRate_zero_questions_witness :
    ({ title := jsonOrStr (jsGet (Json.jobj []) "title") (defaultReportTitle none),
       sections := jsonOrArr (jsGet (Json.jobj []) "sections"),
       totalResponses := 0,
       completionRate := reportCompletionRate 0 0 } : GenReport).completionRate =
      (if ([] : List FDoc).length = 0 then JsNum.nan else JsNum.posInf) ∧
    ({ title := jsonOrStr (jsGet (Json.jobj []) "title") (defaultReportTitle none),
       sections := jsonOrArr (jsGet (Json.jobj []) "sections"),
       totalResponses := 0,
       completionRate := reportCompletionRate 0 0 } : GenReport).completionRate ≠
      JsNum.fin 50 :=
  have h := reportCompletionRate_zero_questions "p1"
    { projectExists := true, schoolName := none, questions := [], responses := [],
      aiResult := .ok "\x7b\x7d" }
    { title := jsonOrStr (jsGet (Json.jobj []) "title") (defaultReportTitle none),
      sections := jsonOrArr (jsGet (Json.jobj []) "sections"),
      totalResponses := 0,
      completionRate := reportCompletionRate 0 0 }
    rfl rfl
  ⟨h.1, h.2 50⟩

end StepSchoolEval
